import Mathlib

/-!
Verification development for the granola-obsidian-sync repository.

Shallow embedding of the incremental sync engine: the paginated document
fetcher (`api.fetch_documents_since`), the HTTP retry engine
(`api._make_request`), the watermark-advancing orchestrator
(`sync.run_sync`), the mapping cache (`participants`), the speaker
attribution engine, and the statistics accounting.

Timestamps are modelled as integers (seconds); `Option` models a field
that is missing or failed to parse (the source's `_get_document_date`
returning `None`).
-/

namespace GranolaSync

/-- A remote document as seen by the fetcher.  `created`/`updated` are the
parsed `created_at`/`updated_at` timestamps; `none` models a missing or
unparsable field (the source's `_get_document_date` returning `None`). -/
structure Doc where
  id : Nat
  created : Option Int
  updated : Option Int
deriving DecidableEq, Repr

/-- Embedding of `api._is_document_recent` (api.py lines 163-172).
Python evaluates `created_dt >= since_date or updated_dt >= since_date`
with `updated_dt = updated or created_dt`; when `created_dt` is `None`
the comparison raises and the bare `except` returns `True` (include
defensively), so a document with no parsable `created_at` is always
recent. -/
def isDocumentRecent (d : Doc) (since : Int) : Bool :=
  match d.created with
  | none => true
  | some c =>
    match d.updated with
    | none => decide (since ≤ c)
    | some u => decide (since ≤ c) || decide (since ≤ u)

/-- Embedding of the per-page filtering loop of `api.fetch_documents_since`
(api.py lines 136-142): recent documents are appended, and the loop breaks
at the first document whose `created_at` is older than the cutoff.  The
`none` branch of the inner match is unreachable: `isDocumentRecent d since
= false` forces `d.created = some c` with `c < since`
(`isDocumentRecent_false_created`); in Python that branch would compare
`None < datetime` and crash, which never happens. -/
def filterPageDocs (since : Int) : List Doc → List Doc
  | [] => []
  | d :: ds =>
    if isDocumentRecent d since then
      d :: filterPageDocs since ds
    else
      match d.created with
      | some c => if c < since then [] else filterPageDocs since ds
      | none => []

/-- Embedding of the paging loop of `api.fetch_documents_since` (api.py
lines 114-161).  `pages` is the sequence of successful page responses the
server returns for offsets 0, batch, 2*batch, ...; the loop stops on an
empty page, or after a page that contributed no kept documents. -/
def fetchDocumentsSince (since : Int) : List (List Doc) → List Doc
  | [] => []
  | page :: rest =>
    if page.isEmpty then []
    else
      let recent := filterPageDocs since page
      if recent.isEmpty then recent
      else recent ++ fetchDocumentsSince since rest

/-- Modelled from the claim's words (not the source), for comparison with
`fetchDocumentsSince`: keep, from each returned page, exactly the
documents whose creation OR update timestamp is at least the watermark,
stopping when a page is empty or yields zero recent documents. -/
def fetchDocumentsSinceClaim (since : Int) : List (List Doc) → List Doc
  | [] => []
  | page :: rest =>
    if page.isEmpty then []
    else
      let recent := page.filter (fun d => isDocumentRecent d since)
      if recent.isEmpty then recent
      else recent ++ fetchDocumentsSinceClaim since rest

theorem isDocumentRecent_false_created (d : Doc) (since : Int)
    (h : isDocumentRecent d since = false) :
    ∃ c, d.created = some c ∧ c < since := by
  rcases d with ⟨i, created, updated⟩
  cases created with
  | none => simp [isDocumentRecent] at h
  | some c =>
    refine ⟨c, rfl, ?_⟩
    cases updated with
    | none =>
      simp only [isDocumentRecent, decide_eq_false_iff_not, not_le] at h
      exact h
    | some u =>
      simp only [isDocumentRecent, Bool.or_eq_false_iff,
        decide_eq_false_iff_not, not_le] at h
      exact h.1

theorem filterPageDocs_eq_takeWhile (since : Int) (page : List Doc) :
    filterPageDocs since page
      = page.takeWhile (fun d => isDocumentRecent d since) := by
  induction page with
  | nil => rfl
  | cons d ds ih =>
    by_cases h : isDocumentRecent d since = true
    · simp [filterPageDocs, List.takeWhile, h, ih]
    · have hf : isDocumentRecent d since = false := by
        simpa using h
      obtain ⟨c, hc, hlt⟩ := isDocumentRecent_false_created d since hf
      simp [filterPageDocs, List.takeWhile, hf, hc, hlt]

/-- Claim C1: the fetcher does NOT keep exactly the recent documents of
each page.  On a page holding a stale document followed by a fresh one,
the inner loop breaks at the stale document and drops the fresh one (and
then stops paging, having kept nothing), while the claim's reading keeps
the fresh document. -/
theorem claim1_counterexample :
    fetchDocumentsSince 10 [[⟨0, some 5, none⟩, ⟨1, some 20, none⟩]] = []
    ∧ fetchDocumentsSinceClaim 10 [[⟨0, some 5, none⟩, ⟨1, some 20, none⟩]]
        = [⟨1, some 20, none⟩]
    ∧ ([] : List Doc) ≠ [⟨1, some 20, none⟩] := by
  refine ⟨by decide, by decide, by decide⟩

/-- Claim C1 (amended): from each page the fetcher keeps the longest
PREFIX of documents whose creation-or-update timestamp is at least the
watermark — scanning of a page stops at the first older document, so
recent documents appearing after a stale one on the same page are
dropped; paging stops on an empty page or when a page contributes no kept
documents; a document created one second before the watermark with no
update timestamp is excluded, and one created one second after is
included. -/
theorem claim1_amended :
    ∀ (since : Int) (page : List Doc) (rest : List (List Doc)) (i : Nat) (w : Int),
      filterPageDocs since page
          = page.takeWhile (fun d => isDocumentRecent d since)
      ∧ fetchDocumentsSince since (page :: rest)
          = (if page.isEmpty then []
             else
               let recent := page.takeWhile (fun d => isDocumentRecent d since)
               if recent.isEmpty then recent
               else recent ++ fetchDocumentsSince since rest)
      ∧ isDocumentRecent ⟨i, some (w - 1), none⟩ w = false
      ∧ isDocumentRecent ⟨i, some (w + 1), none⟩ w = true := by
  intro since page rest i w
  refine ⟨filterPageDocs_eq_takeWhile since page, ?_, ?_, ?_⟩
  · simp [fetchDocumentsSince, filterPageDocs_eq_takeWhile]
  · simp [isDocumentRecent]
  · simp [isDocumentRecent]

/-! ## HTTP request engine (`api._make_request`, api.py lines 57-104) -/

/-- One server response to one attempt.  `ok sv p` is an HTTP 200 whose
body parses to payload `p`, with `sv` recording whether the body is a
dict or a list (`_validate_api_response`'s structural check); `status c`
is a non-200 HTTP status `c`; `transportFailure` is a
`requests.exceptions.RequestException`. -/
inductive HttpResp where
  | ok (structValid : Bool) (payload : Nat)
  | status (code : Nat)
  | transportFailure
deriving DecidableEq, Repr

/-- Configuration slice used by `_make_request`: `api.max_retries`,
`error_handling.retry_base_delay`, `error_handling.retry_max_delay`, and
`data.validate_api_responses`. -/
structure ApiCfg where
  maxRetries : Nat
  baseDelay : Nat
  maxDelay : Nat
  validate : Bool
deriving DecidableEq, Repr

/-- The two `GranolaAPIError` shapes `_make_request` can raise: the 401
path raises naming only the status code, the exhaustion path raises
naming the URL and `max_retries`. -/
inductive ReqError where
  | authFailed (code : Nat)
  | exhausted (url : String) (attempts : Nat)
deriving DecidableEq, Repr

/-- Observable trace of one `_make_request` execution: the returned
payload or raised error, the cached-token field after the call, the
bearer token attached to each attempt actually made (in order), and the
`time.sleep` delays inserted, tagged with the attempt index they follow. -/
structure ReqTrace where
  result : Except ReqError Nat
  cachedAfter : Option Nat
  sentTokens : List Nat
  sleeps : List (Nat × Nat)
deriving Repr

/-- Embedding of the attempt loop of `api._make_request` (api.py lines
64-104).  `tok` is the token baked into `headers` BEFORE the loop (the
source computes `headers` once); `responses attempt` is what the server
returns to attempt number `attempt`; `remaining` is `maxRetries -
attempt`, the loop iterations left.  On a 200 with a valid body the
payload is returned; on a 401 at attempt 0 the cached token is cleared
and the loop continues (skipping the backoff sleep); on a 401 later the
auth error is raised; on any other status, or an invalid 200 body, a
backoff of `min (baseDelay * 2 ^ attempt) maxDelay` is slept when budget
remains; on a transport failure a flat `baseDelay` is slept when budget
remains.  Falling out of the loop raises the exhaustion error naming the
URL and `maxRetries`. -/
def makeRequestGo (cfg : ApiCfg) (url : String) (tok : Nat)
    (responses : Nat → HttpResp) :
    Nat → Nat → Option Nat → ReqTrace
  | 0, _, cached => ⟨.error (.exhausted url cfg.maxRetries), cached, [], []⟩
  | remaining + 1, attempt, cached =>
    match responses attempt with
    | .ok sv payload =>
      if !cfg.validate || sv then
        ⟨.ok payload, cached, [tok], []⟩
      else
        let rest := makeRequestGo cfg url tok responses remaining (attempt + 1) cached
        ⟨rest.result, rest.cachedAfter, tok :: rest.sentTokens,
          (if attempt + 1 < cfg.maxRetries
           then [(attempt, min (cfg.baseDelay * 2 ^ attempt) cfg.maxDelay)]
           else []) ++ rest.sleeps⟩
    | .status code =>
      if code == 401 then
        if attempt == 0 then
          let rest := makeRequestGo cfg url tok responses remaining (attempt + 1) none
          ⟨rest.result, rest.cachedAfter, tok :: rest.sentTokens, rest.sleeps⟩
        else
          ⟨.error (.authFailed code), cached, [tok], []⟩
      else
        let rest := makeRequestGo cfg url tok responses remaining (attempt + 1) cached
        ⟨rest.result, rest.cachedAfter, tok :: rest.sentTokens,
          (if attempt + 1 < cfg.maxRetries
           then [(attempt, min (cfg.baseDelay * 2 ^ attempt) cfg.maxDelay)]
           else []) ++ rest.sleeps⟩
    | .transportFailure =>
      let rest := makeRequestGo cfg url tok responses remaining (attempt + 1) cached
      ⟨rest.result, rest.cachedAfter, tok :: rest.sentTokens,
        (if attempt + 1 < cfg.maxRetries
         then [(attempt, cfg.baseDelay)]
         else []) ++ rest.sleeps⟩

/-- Embedding of `api._make_request` (api.py lines 57-104).  The
`access_token` property returns the cached token, lazily loading
`fileToken` from the credential store and caching it when no token is
cached; the resulting token is baked into the request headers once, so
every attempt of this execution carries it even after a 401 clears the
cache. -/
def makeRequest (cfg : ApiCfg) (url : String) (cached : Option Nat)
    (fileToken : Nat) (responses : Nat → HttpResp) : ReqTrace :=
  let tok := cached.getD fileToken
  makeRequestGo cfg url tok responses cfg.maxRetries 0 (some tok)

/-- The exponential backoff delay of api.py lines 93-96. -/
def backoffDelay (cfg : ApiCfg) (attempt : Nat) : Nat :=
  min (cfg.baseDelay * 2 ^ attempt) cfg.maxDelay

/-- A response that `_make_request` reacts to by retrying (rather than
returning or raising): a non-401 error status, a transport failure, a
200 whose body fails structural validation, or a 401 on the very first
attempt (which clears the token and continues). -/
def retriedResp (cfg : ApiCfg) (i : Nat) (r : HttpResp) : Prop :=
  (∃ c, r = .status c ∧ c ≠ 401) ∨ r = .transportFailure ∨
    (∃ sv p, r = .ok sv p ∧ cfg.validate = true ∧ sv = false) ∨
    (i = 0 ∧ r = .status 401)

theorem makeRequestGo_sentTokens_all (cfg : ApiCfg) (url : String) (tok : Nat)
    (responses : Nat → HttpResp) :
    ∀ remaining attempt cached,
      (makeRequestGo cfg url tok responses remaining attempt cached).sentTokens.all
        (· == tok) = true := by
  intro remaining
  induction remaining with
  | zero => intro attempt cached; rfl
  | succ n ih =>
    intro attempt cached
    cases h : responses attempt with
    | ok sv payload =>
      simp only [makeRequestGo, h]
      split
      · simp
      · simp [ih]
    | status code =>
      simp only [makeRequestGo, h]
      split
      · split
        · simp [ih]
        · simp
      · simp [ih]
    | transportFailure =>
      simp only [makeRequestGo, h]
      simp [ih]

theorem makeRequestGo_result_ok (cfg : ApiCfg) (url : String) (tok : Nat)
    (responses : Nat → HttpResp) (p : Nat) :
    ∀ remaining attempt cached, 1 ≤ remaining →
      (∀ i, attempt ≤ i → i + 1 < attempt + remaining → responses i = .status 500) →
      responses (attempt + remaining - 1) = .ok true p →
      (makeRequestGo cfg url tok responses remaining attempt cached).result = .ok p := by
  intro remaining
  induction remaining with
  | zero => intro attempt cached h; omega
  | succ n ih =>
    intro attempt cached _ h500 hok
    cases n with
    | zero =>
      have ha : responses attempt = .ok true p := by
        simpa using hok
      simp [makeRequestGo, ha]
    | succ m =>
      have ha : responses attempt = .status 500 := h500 attempt Nat.le.refl (by omega)
      simp only [makeRequestGo, ha]
      have h401 : (500 == 401) = false := by decide
      simp only [h401, Bool.false_eq_true, if_false]
      exact ih (attempt + 1) cached (by omega)
        (fun i hi hi2 => h500 i (by omega) (by omega))
        (by have : attempt + 1 + (m + 1) - 1 = attempt + (m + 1 + 1) - 1 := by omega
            rw [this]; exact hok)

theorem makeRequestGo_result_exhausted (cfg : ApiCfg) (url : String) (tok : Nat)
    (responses : Nat → HttpResp) :
    ∀ remaining attempt cached,
      (∀ i, attempt ≤ i → i < attempt + remaining → retriedResp cfg i (responses i)) →
      (makeRequestGo cfg url tok responses remaining attempt cached).result
        = .error (.exhausted url cfg.maxRetries) := by
  intro remaining
  induction remaining with
  | zero => intro attempt cached _; rfl
  | succ n ih =>
    intro attempt cached h
    have hr := h attempt Nat.le.refl (by omega)
    have hrec := fun cached2 => ih (attempt + 1) cached2
      (fun i hi hi2 => h i (by omega) (by omega))
    rcases hr with ⟨c, hc, hne⟩ | ht | ⟨sv, p, hsp, hv, hsv⟩ | ⟨h0, h401⟩
    · have hcode : (c == 401) = false := by
        simp [hne]
      simp only [makeRequestGo, hc, hcode, Bool.false_eq_true, if_false]
      exact hrec cached
    · simp only [makeRequestGo, ht]
      exact hrec cached
    · simp only [makeRequestGo, hsp, hv, hsv]
      simp only [Bool.not_true, Bool.false_or, Bool.false_eq_true, if_false]
      exact hrec cached
    · subst h0
      simp only [makeRequestGo, h401]
      simp only [beq_self_eq_true, if_true]
      exact hrec none

theorem makeRequestGo_result_auth (cfg : ApiCfg) (url : String) (tok : Nat)
    (responses : Nat → HttpResp) :
    ∀ remaining attempt cached j, attempt ≤ j → j < attempt + remaining → 1 ≤ j →
      (∀ i, attempt ≤ i → i < j → retriedResp cfg i (responses i)) →
      responses j = .status 401 →
      (makeRequestGo cfg url tok responses remaining attempt cached).result
        = .error (.authFailed 401) := by
  intro remaining
  induction remaining with
  | zero => intro attempt cached j h1 h2; omega
  | succ n ih =>
    intro attempt cached j hle hlt hj h hrj
    by_cases hcase : attempt = j
    · subst hcase
      have hne : attempt ≠ 0 := by omega
      have hb : (attempt == 0) = false := by
        simp [hne]
      simp [makeRequestGo, hrj, hb]
    · have hr := h attempt Nat.le.refl (by omega)
      have hrec : ∀ cached2,
          (makeRequestGo cfg url tok responses n (attempt + 1) cached2).result
            = .error (.authFailed 401) :=
        fun cached2 => ih (attempt + 1) cached2 j (by omega) (by omega) hj
          (fun i hi hi2 => h i (by omega) hi2) hrj
      rcases hr with ⟨c, hc, hne⟩ | ht | ⟨sv, p, hsp, hv, hsv⟩ | ⟨h0, h401⟩
      · have hcode : (c == 401) = false := by
          simp [hne]
        simp only [makeRequestGo, hc, hcode, Bool.false_eq_true, if_false]
        exact hrec cached
      · simp only [makeRequestGo, ht]
        exact hrec cached
      · simp only [makeRequestGo, hsp, hv, hsv]
        simp only [Bool.not_true, Bool.false_or, Bool.false_eq_true, if_false]
        exact hrec cached
      · subst h0
        simp only [makeRequestGo, h401]
        simp only [beq_self_eq_true, if_true]
        exact hrec none

/-- Claim C3: the 401 handling is NOT a budget-exempt fresh-token retry.
With `max_retries = 2`, a cached token 7 and a credential file holding 9,
against responses 401, 500, 200-ok the code clears the cache and
continues, but the continue consumes an attempt of the budget (the
request exhausts after 2 attempts instead of reaching the 200 the
claim's semantics would reach), and both attempts carry the stale header
token 7 — the freshly loadable token 9 is never sent. -/
theorem claim3_counterexample :
    makeRequest ⟨2, 1, 10, true⟩ "u" (some 7) 9
        (fun i => if i == 0 then .status 401
                  else if i == 1 then .status 500 else .ok true 42)
      = ⟨.error (.exhausted "u" 2), none, [7, 7], []⟩
    ∧ (9 : Nat) ∉ [7, 7] := by
  exact ⟨rfl, by decide⟩

/-- Claim C3 (amended): a 401 received on the FIRST attempt clears the
cached token and immediately continues (no backoff delay) to the next
loop iteration, which is counted against the `max_retries` budget and
carries the same Authorization token computed at entry (the headers are
built once, so no freshly reloaded token is used within this request);
with a budget of one attempt the 401 therefore exhausts the request with
no retry at all; a 401 on any later attempt raises an authentication
error immediately. -/
theorem claim3_amended :
    ∀ (cached : Option Nat) (ft p d1 d2 : Nat) (url : String),
      makeRequest ⟨2, d1, d2, true⟩ url cached ft
          (fun i => if i == 0 then .status 401 else .ok true p)
        = ⟨.ok p, none, [cached.getD ft, cached.getD ft], []⟩
      ∧ makeRequest ⟨1, d1, d2, true⟩ url cached ft (fun _ => .status 401)
        = ⟨.error (.exhausted url 1), none, [cached.getD ft], []⟩
      ∧ makeRequest ⟨2, d1, d2, true⟩ url cached ft
          (fun i => if i == 0 then .status 500 else .status 401)
        = ⟨.error (.authFailed 401), some (cached.getD ft),
            [cached.getD ft, cached.getD ft], [(0, min (d1 * 2 ^ 0) d2)]⟩
      ∧ ∀ (cfg : ApiCfg) (responses : Nat → HttpResp),
          (makeRequest cfg url cached ft responses).sentTokens.all
            (· == cached.getD ft) = true := by
  intro cached ft p d1 d2 url
  refine ⟨rfl, rfl, rfl, ?_⟩
  intro cfg responses
  exact makeRequestGo_sentTokens_all cfg url (cached.getD ft) responses
    cfg.maxRetries 0 (some (cached.getD ft))

/-- Claim C4: when no attempt yields a valid 200 the raised error does
not always name the URL and attempt count — a 401 on a later attempt
raises `Authentication failed: 401`, which names only the status code.
Here attempt 0 returns 500 and attempt 1 returns 401 under
`max_retries = 2`. -/
theorem claim4_counterexample :
    (makeRequest ⟨2, 1, 10, true⟩ "u" none 0
        (fun i => if i == 0 then .status 500 else .status 401)).result
      = .error (.authFailed 401)
    ∧ ∀ (urlx : String) (attempts : Nat),
        ReqError.authFailed 401 ≠ .exhausted urlx attempts := by
  refine ⟨rfl, ?_⟩
  intro urlx attempts h
  exact ReqError.noConfusion h

/-- Claim C4 (amended): a request whose first `max_retries - 1` attempts
return HTTP 500 and whose last attempt returns a structurally valid 200
returns the parsed payload; a request all of whose attempts fail with
retried failures (non-401 status, transport failure, invalid 200 body,
or a 401 on the very first attempt) raises the error naming the URL and
the attempt count; but a 401 on a later attempt, after retried failures,
instead raises an authentication error naming only the status code. -/
theorem claim4_amended (cfg : ApiCfg) (url : String) (cached : Option Nat)
    (ft p : Nat) (responses : Nat → HttpResp)
    (hn : 1 ≤ cfg.maxRetries) :
    ((∀ i, i + 1 < cfg.maxRetries → responses i = .status 500) →
       responses (cfg.maxRetries - 1) = .ok true p →
       (makeRequest cfg url cached ft responses).result = .ok p)
    ∧ ((∀ i, i < cfg.maxRetries → retriedResp cfg i (responses i)) →
       (makeRequest cfg url cached ft responses).result
         = .error (.exhausted url cfg.maxRetries))
    ∧ (∀ j, 1 ≤ j → j < cfg.maxRetries →
       (∀ i, i < j → retriedResp cfg i (responses i)) →
       responses j = .status 401 →
       (makeRequest cfg url cached ft responses).result
         = .error (.authFailed 401)) := by
  refine ⟨?_, ?_, ?_⟩
  · intro h500 hok
    exact makeRequestGo_result_ok cfg url (cached.getD ft) responses p
      cfg.maxRetries 0 (some (cached.getD ft)) hn
      (fun i _ hi2 => h500 i (by omega))
      (by simpa using hok)
  · intro h
    exact makeRequestGo_result_exhausted cfg url (cached.getD ft) responses
      cfg.maxRetries 0 (some (cached.getD ft)) (fun i _ hi2 => h i (by omega))
  · intro j hj hjn h h401
    exact makeRequestGo_result_auth cfg url (cached.getD ft) responses
      cfg.maxRetries 0 (some (cached.getD ft)) j (by omega) (by omega) hj
      (fun i _ hi2 => h i hi2) h401

/-- Witness for `claim4_amended` at `max_retries = 2`: responses 500 then
valid 200 succeed with the payload, and all-transport-failure responses
exhaust with the error naming the URL and the attempt count. -/
theorem claim4_amended_witness :
    (makeRequest ⟨2, 1, 10, true⟩ "u" none 0
        (fun i => if i == 0 then .status 500 else .ok true 5)).result = .ok 5
    ∧ (makeRequest ⟨2, 1, 10, true⟩ "u" none 0
        (fun _ => .transportFailure)).result = .error (.exhausted "u" 2) := by
  constructor
  · exact (claim4_amended ⟨2, 1, 10, true⟩ "u" none 0 5
        (fun i => if i == 0 then .status 500 else .ok true 5) (by decide)).1
      (fun i hi => by
        have h2 : i + 1 < 2 := hi
        have h0 : i = 0 := by omega
        subst h0; rfl)
      rfl
  · exact (claim4_amended ⟨2, 1, 10, true⟩ "u" none 0 5
        (fun _ => .transportFailure) (by decide)).2.1
      (fun i _ => Or.inr (Or.inl rfl))

/-- What is actually true of every delay `_make_request` inserts: it is
only inserted while retry budget remains, a transport failure sleeps the
flat `retry_base_delay`, and a non-401 error status or an invalid 200
body sleeps the exponential `min (base * 2 ^ attempt) max`. -/
def sleepSound (cfg : ApiCfg) (responses : Nat → HttpResp) (i d : Nat) : Prop :=
  i + 1 < cfg.maxRetries ∧
    ((responses i = .transportFailure ∧ d = cfg.baseDelay) ∨
     (((∃ c, responses i = .status c ∧ c ≠ 401) ∨
       (∃ sv p, responses i = .ok sv p ∧ cfg.validate = true ∧ sv = false)) ∧
      d = backoffDelay cfg i))

theorem makeRequestGo_sleeps_sound (cfg : ApiCfg) (url : String) (tok : Nat)
    (responses : Nat → HttpResp) :
    ∀ remaining attempt cached i d,
      (i, d) ∈ (makeRequestGo cfg url tok responses remaining attempt cached).sleeps →
      sleepSound cfg responses i d := by
  intro remaining
  induction remaining with
  | zero =>
    intro attempt cached i d hmem
    simp [makeRequestGo] at hmem
  | succ n ih =>
    intro attempt cached i d hmem
    cases h : responses attempt with
    | ok sv payload =>
      simp only [makeRequestGo, h] at hmem
      split at hmem
      · simp at hmem
      · rename_i hval
        simp only [List.mem_append] at hmem
        rcases hmem with hl | hr
        · split at hl
          · rename_i hlt
            simp only [List.mem_singleton, Prod.mk.injEq] at hl
            obtain ⟨hi, hd⟩ := hl
            subst hi; subst hd
            have hv : cfg.validate = true ∧ sv = false := by
              cases hcv : cfg.validate <;> cases hsv : sv <;> simp_all
            exact ⟨hlt, Or.inr ⟨Or.inr ⟨sv, payload, h, hv.1, hv.2⟩, rfl⟩⟩
          · simp at hl
        · exact ih (attempt + 1) cached i d hr
    | status code =>
      simp only [makeRequestGo, h] at hmem
      split at hmem
      · rename_i h401
        have hc : code = 401 := by
          simpa using h401
        split at hmem
        · exact ih (attempt + 1) none i d hmem
        · simp at hmem
      · rename_i h401
        have hc : code ≠ 401 := by
          simpa using h401
        simp only [List.mem_append] at hmem
        rcases hmem with hl | hr
        · split at hl
          · rename_i hlt
            simp only [List.mem_singleton, Prod.mk.injEq] at hl
            obtain ⟨hi, hd⟩ := hl
            subst hi; subst hd
            exact ⟨hlt, Or.inr ⟨Or.inl ⟨code, h, hc⟩, rfl⟩⟩
          · simp at hl
        · exact ih (attempt + 1) cached i d hr
    | transportFailure =>
      simp only [makeRequestGo, h] at hmem
      simp only [List.mem_append] at hmem
      rcases hmem with hl | hr
      · split at hl
        · rename_i hlt
          simp only [List.mem_singleton, Prod.mk.injEq] at hl
          obtain ⟨hi, hd⟩ := hl
          subst hi; subst hd
          exact ⟨hlt, Or.inl ⟨h, rfl⟩⟩
        · simp at hl
      · exact ih (attempt + 1) cached i d hr

/-- Claim C5: the delay before a retry does NOT always equal
`min(base_delay * 2^attempt, max_delay)`.  With base_delay 3, max_delay
100, two transport failures then a success, the code sleeps the flat
base delay 3 after attempt 1, while the claim predicts
`min(3 * 2^1, 100) = 6`. -/
theorem claim5_counterexample :
    (makeRequest ⟨3, 3, 100, true⟩ "u" none 0
        (fun i => if i ≤ 1 then .transportFailure else .ok true 5)).sleeps
      = [(0, 3), (1, 3)]
    ∧ ((1, 3) ∈ [(0, 3), (1, 3)] ∧ 3 ≠ min (3 * 2 ^ 1) 100) := by
  exact ⟨rfl, by decide, by decide⟩

/-- Claim C5 (amended): every delay inserted before a retry is inserted
only while budget remains, and equals `min(base_delay * 2^attempt,
max_delay)` when the failed attempt was a non-401 HTTP status or a
structurally invalid 200 body, but equals the flat `base_delay` when the
failed attempt was a transport-level exception; a 401 inserts no delay at
all. -/
theorem claim5_amended (cfg : ApiCfg) (url : String) (cached : Option Nat)
    (ft : Nat) (responses : Nat → HttpResp) (i d : Nat)
    (hmem : (i, d) ∈ (makeRequest cfg url cached ft responses).sleeps) :
    sleepSound cfg responses i d :=
  makeRequestGo_sleeps_sound cfg url (cached.getD ft) responses
    cfg.maxRetries 0 (some (cached.getD ft)) i d hmem

/-- Witness for `claim5_amended`: the delay recorded after a failed
attempt 0 (HTTP 500, base 3, max 100, budget 3) satisfies the soundness
characterisation. -/
theorem claim5_amended_witness :
    sleepSound ⟨3, 3, 100, true⟩
      (fun i => if i == 0 then .status 500 else .ok true 5) 0 3 :=
  claim5_amended ⟨3, 3, 100, true⟩ "u" none 0
    (fun i => if i == 0 then .status 500 else .ok true 5) 0 3 (by decide)

/-! ## Group mapping cache (`participants.py`) -/

/-- One value of the persisted document-to-group mapping
(`participants._create_document_mapping`): `document_list_id`,
`document_list_name`, `document_title`.  The list id can be absent
(`doc_list.get('id')` returning `None`). -/
structure MapEntry where
  listId : Option String
  listName : String
  docTitle : String
deriving DecidableEq, Repr

/-- Embedding of `participants._should_refresh_mapping` (participants.py
lines 47-68): no refresh when auto-refresh is disabled; otherwise refresh
when the file is absent, when `stat` fails (`OSError`), or when the file
age strictly exceeds the configured maximum age. -/
def shouldRefreshMapping (autoRefresh present statFails : Bool)
    (fileAgeHours maxAgeHours : Nat) : Bool :=
  if !autoRefresh then false
  else if !present then true
  else if statFails then true
  else decide (maxAgeHours < fileAgeHours)

/-- Embedding of `participants.load_document_mapping` (participants.py
lines 26-45), with the file system abstracted: `present`/`parses` say
whether the mapping file exists and whether its JSON parses, `contents`
is its parsed value, and `rebuilt` is what `_create_document_mapping`
would produce.  Returns the mapping used and whether a rebuild happened.
When `_should_refresh_mapping` says no, the source still rebuilds if
opening the file raises `FileNotFoundError` or `json.JSONDecodeError`. -/
def loadDocumentMapping (autoRefresh present statFails : Bool)
    (fileAgeHours maxAgeHours : Nat) (parses : Bool)
    (contents rebuilt : List (String × MapEntry)) :
    List (String × MapEntry) × Bool :=
  if shouldRefreshMapping autoRefresh present statFails fileAgeHours maxAgeHours then
    (rebuilt, true)
  else if present && parses then (contents, false)
  else (rebuilt, true)

/-- Modelled from the claim's words (not the source): rebuild if and only
if auto-refresh is enabled AND (the file is absent OR its age exceeds
the configured maximum OR it fails to parse). -/
def claimRefreshCondition (autoRefresh present : Bool)
    (fileAgeHours maxAgeHours : Nat) (parses : Bool) : Bool :=
  autoRefresh && (!present || decide (maxAgeHours < fileAgeHours) || !parses)

/-- Claim C6: the rebuild condition is NOT `auto-refresh AND (absent OR
stale OR unparsable)`.  With auto-refresh disabled and the mapping file
absent, the claim's condition is false, yet the load path falls into the
`FileNotFoundError` handler and rebuilds. -/
theorem claim6_counterexample :
    (loadDocumentMapping false false false 0 24 true []
        [("d", ⟨none, "L", "T"⟩)]).2 = true
    ∧ claimRefreshCondition false false 0 24 true = false := by
  exact ⟨rfl, rfl⟩

/-- Claim C6 (amended): `load_document_mapping` rebuilds if and only if
the mapping file is absent, OR it fails to parse, OR auto-refresh is
enabled and the file's stat fails or its age exceeds the configured
maximum; it returns the parsed contents of the existing file exactly
when it does not rebuild. -/
theorem claim6_amended :
    ∀ (autoRefresh present statFails : Bool) (fileAgeHours maxAgeHours : Nat)
      (parses : Bool) (contents rebuilt : List (String × MapEntry)),
      loadDocumentMapping autoRefresh present statFails fileAgeHours maxAgeHours
          parses contents rebuilt
        = (if (!present || !parses
                || (autoRefresh && (statFails || decide (maxAgeHours < fileAgeHours))))
              = true
           then rebuilt else contents,
           !present || !parses
             || (autoRefresh && (statFails || decide (maxAgeHours < fileAgeHours)))) := by
  intro autoRefresh present statFails fileAgeHours maxAgeHours parses contents rebuilt
  cases autoRefresh <;> cases present <;> cases statFails <;> cases parses <;>
    by_cases hage : maxAgeHours < fileAgeHours <;>
      simp [loadDocumentMapping, shouldRefreshMapping, hage]

/-! ## Speaker attribution (`participants.py` lines 146-213) -/

/-- One transcript turn: the audio source channel tag and the raw text.
A raw item that is not a dict with a `text` key is skipped by the
source; the embedding models well-formed items. -/
structure Turn where
  source : String
  text : String
deriving DecidableEq, Repr

/-- Per-speaker statistics accumulated by
`parse_transcript_with_participants`. -/
structure SpeakerStats where
  wordCount : Nat
  segmentCount : Nat
deriving DecidableEq, Repr

/-- Embedding of `participants._detect_speaker` (participants.py lines
186-213).  `microphone` maps to the roster's first entry (`"Me"` if the
roster is empty); `system` maps to the sole non-first entry when the
roster has exactly two entries and to `"Them"` otherwise; any other
source tag is capitalized (`str.title()`, modelled by `capitalize` since
source tags are single words) and matched against the roster, falling
back to `"Unknown"`. -/
def detectSpeaker (source : String) (participants : List String) : String :=
  if source == "microphone" then
    participants.headD "Me"
  else if source == "system" then
    let otherParticipants :=
      if 1 < participants.length then participants.tail else ["Them"]
    if otherParticipants.length == 1 then otherParticipants.headD "Them"
    else "Them"
  else
    let sourceTitle := source.capitalize
    if participants.contains sourceTitle then sourceTitle else "Unknown"

/-- Model of Python `str.strip()`: drop whitespace from both ends.
Stated over the character list so that the kernel can evaluate it. -/
def trimModel (s : String) : String :=
  ⟨((s.data.dropWhile Char.isWhitespace).reverse.dropWhile
      Char.isWhitespace).reverse⟩

/-- Model of Python `str.split()` with no separator: the maximal
nonempty runs of non-whitespace characters, accumulator-style over the
character list. -/
def splitWhitespaceAux : List Char → List Char → List (List Char)
  | [], acc => if acc.isEmpty then [] else [acc.reverse]
  | c :: cs, acc =>
    if c.isWhitespace then
      if acc.isEmpty then splitWhitespaceAux cs []
      else acc.reverse :: splitWhitespaceAux cs []
    else splitWhitespaceAux cs (c :: acc)

/-- Word count of a turn: `len(text.split())`. -/
def wordCountOf (text : String) : Nat :=
  (splitWhitespaceAux text.data []).length

/-- Update of the `speaker_stats` dict: create the entry on first sight
(at the end, preserving insertion order), then add the word count and
bump the segment count. -/
def updateSpeakerStats (stats : List (String × SpeakerStats))
    (speaker : String) (w : Nat) : List (String × SpeakerStats) :=
  let ensured :=
    if stats.any (fun q => q.1 == speaker) then stats
    else stats ++ [(speaker, ⟨0, 0⟩)]
  ensured.map (fun q =>
    if q.1 == speaker then (q.1, ⟨q.2.wordCount + w, q.2.segmentCount + 1⟩)
    else q)

/-- Insertion into the `speakers` set, modelled as a deduplicating list
in insertion order. -/
def addSpeaker (speakers : List String) (s : String) : List String :=
  if speakers.contains s then speakers else speakers ++ [s]

/-- Embedding of the accumulation loop of
`participants.parse_transcript_with_participants` (participants.py lines
158-177): turns whose trimmed text is empty are skipped entirely; each
kept turn appends `"speaker: text\n\n"` (with the trimmed text) and
updates the speaker's statistics. -/
def parseTranscriptGo (participants : List String) :
    List Turn → String → List String → List (String × SpeakerStats) →
      String × List String × List (String × SpeakerStats)
  | [], text, speakers, stats => (text, speakers, stats)
  | t :: rest, text, speakers, stats =>
    let trimmed := trimModel t.text
    if trimmed == "" then
      parseTranscriptGo participants rest text speakers stats
    else
      let speaker := detectSpeaker t.source participants
      if speaker == "" then
        parseTranscriptGo participants rest text speakers stats
      else
        parseTranscriptGo participants rest
          (text ++ speaker ++ ": " ++ trimmed ++ "\n\n")
          (addSpeaker speakers speaker)
          (updateSpeakerStats stats speaker (wordCountOf trimmed))

/-- Embedding of `participants.parse_transcript_with_participants`
(participants.py lines 146-184): `none` when the input sequence is
empty (or not a list), otherwise the rendered text, the speakers seen,
and the per-speaker statistics. -/
def parseTranscriptWithParticipants (transcriptData : List Turn)
    (participants : List String) :
    Option (String × List String × List (String × SpeakerStats)) :=
  if transcriptData.isEmpty then none
  else some (parseTranscriptGo participants transcriptData "" [] [])

/-- Claim C7: speaker attribution behaves as stated — `microphone` goes
to the roster's first entry (`"Me"` on an empty roster); `system` goes to
the sole non-first entry of a two-entry roster and to `"Them"` when the
roster has three or more entries; the two-turn example renders
`"Me: hi\n\nAlice: hello\n\n"` with word count 1 and segment count 1 for
each of Me and Alice. -/
theorem claim7_attribution :
    (∀ ps : List String, detectSpeaker "microphone" ps = ps.headD "Me")
    ∧ (∀ a b : String, detectSpeaker "system" [a, b] = b)
    ∧ (∀ (a b c : String) (rest : List String),
        detectSpeaker "system" (a :: b :: c :: rest) = "Them")
    ∧ parseTranscriptWithParticipants
        [⟨"microphone", "hi"⟩, ⟨"system", "hello"⟩] ["Me", "Alice"]
      = some ("Me: hi\n\nAlice: hello\n\n", ["Me", "Alice"],
          [("Me", ⟨1, 1⟩), ("Alice", ⟨1, 1⟩)])
    ∧ detectSpeaker "system" ["Me", "Alice", "Bob"] = "Them" := by
  refine ⟨fun ps => rfl, fun a b => rfl, fun a b c rest => rfl, ?_, rfl⟩
  rfl

/-! ## Mapping rebuild, persistence and lookups (`participants.py`, `api.py`) -/

/-- A document as embedded in a group listing response. `none` models a
missing field. -/
structure ListedDoc where
  id : Option String
  title : Option String
deriving DecidableEq, Repr

/-- One group (document list) of the remote listing: id, name and the
embedded documents. -/
structure DocList where
  id : Option String
  name : Option String
  documents : List ListedDoc
deriving DecidableEq, Repr

/-- Assignment into the mapping dict: overwriting an existing key keeps
its position (Python dict semantics), a new key is appended. -/
def upsertMapping (m : List (String × MapEntry)) (k : String) (v : MapEntry) :
    List (String × MapEntry) :=
  if m.any (fun q => q.1 == k) then
    m.map (fun q => if q.1 == k then (k, v) else q)
  else m ++ [(k, v)]

/-- Embedding of the mapping construction of
`participants._create_document_mapping` (participants.py lines 70-95):
iterate the groups in order, then their documents, storing an entry per
truthy document id (missing or empty ids are skipped); a document listed
in several groups keeps the last-seen group (last write wins). -/
def createDocumentMapping (documentLists : List DocList) :
    List (String × MapEntry) :=
  documentLists.foldl (fun mapping dl =>
    dl.documents.foldl (fun mapping d =>
      match d.id with
      | some docId =>
        if docId == "" then mapping
        else
          upsertMapping mapping docId
            ⟨dl.id, dl.name.getD "Untitled List", d.title.getD "Untitled"⟩
      | none => mapping) mapping) []

/-- A JSON string literal with quote escaping, modelling the quoting
`json.dump` applies. -/
def jsonStr (s : String) : String :=
  "\"" ++ s.replace "\"" "\\\"" ++ "\""

/-- Deterministic rendering of one mapping entry, modelling the
`json.dump` object output (whitespace of `indent=2` elided). -/
def serializeEntry (e : MapEntry) : String :=
  "\x7b" ++ jsonStr "document_list_id" ++ ": "
    ++ (match e.listId with | some s => jsonStr s | none => "null")
    ++ ", " ++ jsonStr "document_list_name" ++ ": " ++ jsonStr e.listName
    ++ ", " ++ jsonStr "document_title" ++ ": " ++ jsonStr e.docTitle
    ++ "\x7d"

/-- Deterministic rendering of the whole mapping file, modelling
`json.dump(mapping, f, indent=2)` as a pure function of the mapping. -/
def serializeMapping (m : List (String × MapEntry)) : String :=
  "\x7b"
    ++ String.intercalate ", "
        (m.map (fun kv => jsonStr kv.1 ++ ": " ++ serializeEntry kv.2))
    ++ "\x7d"

/-- Embedding of `participants._save_mapping_with_backup`
(participants.py lines 97-119): returns the bytes written to the mapping
file, and — when auto-backup is enabled and a mapping file already
exists — the timestamped backup made first (the timestamp `now` and the
copied previous contents). -/
def saveMappingWithBackup (autoBackup : Bool) (now : Nat)
    (existingFile : Option String) (mapping : List (String × MapEntry)) :
    String × Option (Nat × String) :=
  (serializeMapping mapping,
   if autoBackup && existingFile.isSome then some (now, existingFile.getD "")
   else none)

/-- Embedding of `api.fetch_document_lists` (api.py lines 211-227):
`outcome` is what `_make_request` produced for the document-lists
endpoint; on a `GranolaAPIError` the method returns an empty list when
the continue-on-mapping-error policy is enabled and re-raises
otherwise. -/
def fetchDocumentLists (outcome : Except ReqError (List DocList))
    (continueOnMappingError : Bool) : Except ReqError (List DocList) :=
  match outcome with
  | .ok l => .ok l
  | .error e => if continueOnMappingError then .ok [] else .error e

/-- The full `_create_document_mapping` pass: fetch the listing (with the
error policy applied), build the mapping, and persist it with backup.
Returns the mapping, the bytes written, and the backup made. -/
def createDocumentMappingRun (outcome : Except ReqError (List DocList))
    (continueOnMappingError autoBackup : Bool) (now : Nat)
    (existingFile : Option String) :
    Except ReqError (List (String × MapEntry) × String × Option (Nat × String)) :=
  match fetchDocumentLists outcome continueOnMappingError with
  | .error e => .error e
  | .ok dls =>
    let m := createDocumentMapping dls
    let sb := saveMappingWithBackup autoBackup now existingFile m
    .ok (m, sb.1, sb.2)

/-- Embedding of `participants.get_document_list_info` (participants.py
lines 215-221): the group name and id for a document, empty strings when
the mapping is empty or the document is unmapped (a stored `None` list
id also surfaces as the empty string, matching its falsiness
downstream). -/
def getDocumentListInfo (mapping : List (String × MapEntry))
    (docId : String) : String × String :=
  match mapping.find? (fun kv => kv.1 == docId) with
  | none => ("", "")
  | some kv => (kv.2.listName, kv.2.listId.getD "")

/-- A suggested participant from the preference data; `none` models a
missing key. -/
structure Participant where
  name : Option String
  email : Option String
deriving DecidableEq, Repr

/-- The name chosen for one participant record:
`p.get('name', p.get('email', 'Unknown'))`. -/
def participantName (p : Participant) : String :=
  match p.name with
  | some n => n
  | none => p.email.getD "Unknown"

/-- Embedding of `participants.get_participants_for_document`
(participants.py lines 121-144): fall back to the configured fallback
roster when the mapping is empty, the document is unmapped, its group id
is absent, or the group has no participant data; otherwise deduplicate
the nonempty participant names in order and prepend `"Me"` when
absent. -/
def getParticipantsForDocument (mapping : List (String × MapEntry))
    (docId : String) (participantData : List (String × List Participant))
    (fallback : List String) : List String :=
  match mapping.find? (fun kv => kv.1 == docId) with
  | none => fallback
  | some kv =>
    match kv.2.listId with
    | none => fallback
    | some lid =>
      match participantData.find? (fun q => q.1 == lid) with
      | none => fallback
      | some q =>
        let names := q.2.foldl (fun names p =>
          let name := participantName p
          if name != "" && !names.contains name then names ++ [name]
          else names) []
        if names.contains "Me" then names else "Me" :: names

/-! ## Note rendering (`obsidian.py` lines 25-193) -/

/-- The document fields `create_note_from_document` reads; the empty
string models a missing field (the source defaults missing fields to
`''`, and a falsy title to `'Untitled Meeting'`). -/
structure NoteDoc where
  title : String
  createdAt : String
  updatedAt : String
  docId : String
deriving DecidableEq, Repr

/-- Configuration slice read by the note builder: the
`obsidian.frontmatter_fields` list, the `include_meeting_series` and
`include_participant_count` flags, and the `documents` section
headers. -/
structure ObsCfg where
  frontmatterFields : List String
  includeMeetingSeries : Bool
  includeParticipantCount : Bool
  transcriptSectionHeader : String
  notesSectionHeader : String
  noTranscriptMessage : String
deriving DecidableEq, Repr

/-- The parsed transcript as the note builder consumes it: the rendered
text and the per-speaker statistics. -/
structure TranscriptContent where
  text : String
  speakerStats : List (String × SpeakerStats)
deriving DecidableEq, Repr

/-- Embedding of `obsidian._extract_meeting_date` (obsidian.py lines
72-82): for an ISO timestamp the `%Y-%m-%d` rendering equals its first
ten characters, and the `ValueError` fallback slices the first ten
characters too, so both paths are the ten-character prefix; shorter
nonempty strings yield the empty string. -/
def extractMeetingDate (createdAt : String) : String :=
  if createdAt == "" then ""
  else if decide (10 ≤ createdAt.length) then ⟨createdAt.data.take 10⟩
  else ""

/-- A YAML frontmatter value: a string or a list of strings. -/
inductive FMValue where
  | str (s : String)
  | strList (l : List String)
deriving DecidableEq, Repr

/-- Embedding of `obsidian._create_frontmatter` (obsidian.py lines
84-123): walk the configured field list, adding each recognised field
(date, created_at, updated_at, document_list and document_list_id only
when their value is nonempty / truthy). -/
def createFrontmatter (fields : List String) (title meetingDate : String)
    (participants : List String)
    (docId createdAt updatedAt listName listId : String) :
    List (String × FMValue) :=
  fields.foldl (fun fm field =>
    if field == "title" then fm ++ [("title", .str title)]
    else if field == "date" then
      if meetingDate == "" then fm else fm ++ [("date", .str meetingDate)]
    else if field == "participants" then
      fm ++ [("participants", .strList participants)]
    else if field == "granola_id" then fm ++ [("granola_id", .str docId)]
    else if field == "created_at" then
      if createdAt == "" then fm else fm ++ [("created_at", .str createdAt)]
    else if field == "updated_at" then
      if updatedAt == "" then fm else fm ++ [("updated_at", .str updatedAt)]
    else if field == "source" then fm ++ [("source", .str "granola")]
    else if field == "document_list" then
      if listName == "" then fm
      else fm ++ [("document_list", .str listName)]
    else if field == "document_list_id" then
      if listId == "" then fm
      else fm ++ [("document_list_id", .str listId)]
    else fm) []

/-- The `json.dumps` rendering of a string list used for the
participants line. -/
def jsonStringList (l : List String) : String :=
  "[" ++ String.intercalate ", " (l.map jsonStr) ++ "]"

/-- Embedding of `obsidian._format_yaml_frontmatter` (obsidian.py lines
125-142): `---`-delimited header; empty lists and empty strings are
skipped; double quotes in string values are escaped. -/
def formatYamlFrontmatter (fm : List (String × FMValue)) : String :=
  (fm.foldl (fun acc kv =>
    match kv.2 with
    | .strList l =>
      if l.isEmpty then acc
      else acc ++ kv.1 ++ ": " ++ jsonStringList l ++ "\n"
    | .str v =>
      if v == "" then acc
      else acc ++ kv.1 ++ ": \"" ++ v.replace "\"" "\\\"" ++ "\"\n")
    "---\n")
  ++ "---\n\n"

/-- Stable insertion by descending word count, modelling Python's stable
`sorted(..., key=word_count, reverse=True)`. -/
def insertByWordCount (x : String × SpeakerStats) :
    List (String × SpeakerStats) → List (String × SpeakerStats)
  | [] => [x]
  | y :: ys =>
    if y.2.wordCount ≤ x.2.wordCount then x :: y :: ys
    else y :: insertByWordCount x ys

/-- Embedding of `obsidian._format_speaker_stats` (obsidian.py lines
173-193). -/
def formatSpeakerStats (stats : List (String × SpeakerStats)) : String :=
  if stats.isEmpty then ""
  else
    ((stats.foldr insertByWordCount []).foldl (fun acc sp =>
      acc ++ "- **" ++ sp.1 ++ "**: " ++ toString sp.2.wordCount
        ++ " words in " ++ toString sp.2.segmentCount ++ " segments\n")
      "### Speaking Summary\n\n")
    ++ "\n"

/-- Embedding of `obsidian._build_note_content` (obsidian.py lines
144-171). -/
def buildNoteContent (cfg : ObsCfg) (title : String)
    (transcript : Option TranscriptContent) (listName : String) : String :=
  let base := "# " ++ title ++ "\n\n"
  let base :=
    if listName != "" && cfg.includeMeetingSeries then
      base ++ "**Meeting Series:** " ++ listName ++ "\n\n"
    else base
  match transcript with
  | some tc =>
    if tc.text != "" then
      let c := base ++ cfg.transcriptSectionHeader ++ "\n\n" ++ tc.text
        ++ "\n\n"
      if !tc.speakerStats.isEmpty && cfg.includeParticipantCount then
        c ++ formatSpeakerStats tc.speakerStats
      else c
    else
      base ++ cfg.notesSectionHeader ++ "\n\n" ++ cfg.noTranscriptMessage
        ++ "\n\n"
  | none =>
    base ++ cfg.notesSectionHeader ++ "\n\n" ++ cfg.noTranscriptMessage
      ++ "\n\n"

/-- Embedding of `obsidian.create_note_from_document` (obsidian.py lines
25-70): returns the full note content, the title used and the extracted
meeting date. -/
def createNoteFromDocument (cfg : ObsCfg) (doc : NoteDoc)
    (transcript : Option TranscriptContent) (participants : List String)
    (listName listId : String) : String × String × String :=
  let title := if doc.title == "" then "Untitled Meeting" else doc.title
  let meetingDate := extractMeetingDate doc.createdAt
  let fm := createFrontmatter cfg.frontmatterFields title meetingDate
    participants doc.docId doc.createdAt doc.updatedAt listName listId
  (formatYamlFrontmatter fm ++ buildNoteContent cfg title transcript listName,
   title, meetingDate)

/-- Claim C8: rebuilding the mapping is a pure function of the remote
group listing — the persisted bytes do not depend on the wall clock, the
backup settings, or the previous file contents — and rendering a note is
a pure function of its five inputs; hence a re-run over identical remote
data reproduces byte-identical mapping contents and identical note
content. -/
theorem claim8_idempotence :
    ∀ (dls : List DocList) (ab1 ab2 : Bool) (now1 now2 : Nat)
      (f1 f2 : Option String) (cfg : ObsCfg) (doc : NoteDoc)
      (tc : Option TranscriptContent) (ps : List String) (ln li : String),
      (saveMappingWithBackup ab1 now1 f1 (createDocumentMapping dls)).1
        = (saveMappingWithBackup ab2 now2 f2 (createDocumentMapping dls)).1
      ∧ createNoteFromDocument cfg doc tc ps ln li
        = createNoteFromDocument cfg doc tc ps ln li := by
  intro dls ab1 ab2 now1 now2 f1 f2 cfg doc tc ps ln li
  exact ⟨rfl, rfl⟩

/-- Claim C9: when the group-listing request fails and the
continue-on-mapping-error policy is enabled, `fetch_document_lists`
yields an empty listing, the rebuild produces the empty mapping and
overwrites the mapping file with its serialization (backing up the
previous file first exactly when auto-backup is enabled), and lookups in
the empty mapping yield the empty group info and the fallback
participant roster. -/
theorem claim9_empty_mapping :
    ∀ (e : ReqError) (ab : Bool) (now : Nat) (prev : String)
      (docId : String) (pdata : List (String × List Participant))
      (fallback : List String),
      createDocumentMappingRun (.error e) true ab now (some prev)
        = .ok ([], serializeMapping [],
            if ab then some (now, prev) else none)
      ∧ getDocumentListInfo [] docId = ("", "")
      ∧ getParticipantsForDocument [] docId pdata fallback = fallback := by
  intro e ab now prev docId pdata fallback
  refine ⟨?_, rfl, rfl⟩
  cases ab <;> rfl

/-! ## Sync orchestrator and statistics (`sync.py`) -/

/-- The outcome of `_process_single_document` for one document: a
successful save (of an existing or a new file), a `save_note` returning
`False` (which bumps `documents_failed` and raises), or any other
exception escaping the method (transcript error with abort policy, API
error, ...). -/
inductive DocOutcome where
  | success (isUpdate : Bool)
  | saveFailure
  | otherFailure
deriving DecidableEq, Repr

/-- The counters of `sync.SyncStats` (sync.py lines 19-56). -/
structure SyncStats where
  processed : Nat
  created : Nat
  updated : Nat
  skipped : Nat
  failed : Nat
  transcriptsFetched : Nat
  transcriptsFailed : Nat
deriving DecidableEq, Repr

/-- Fresh statistics, as built per sync invocation. -/
def zeroStats : SyncStats := ⟨0, 0, 0, 0, 0, 0, 0⟩

/-- Embedding of `SyncStats.success_rate` (sync.py lines 37-42):
`((processed - failed) / processed) * 100` over floats, modelled over
the rationals; `0` when nothing was processed. -/
def successRate (s : SyncStats) : ℚ :=
  if s.processed = 0 then 0
  else (((s.processed : ℚ) - (s.failed : ℚ)) / (s.processed : ℚ)) * 100

/-- Effect of `_process_single_document` (sync.py lines 185-246) on the
statistics, with whether it raised: a successful save bumps
`documents_updated` or `documents_created`; a failed save bumps
`documents_failed` and raises; any other failure raises without touching
the counters here. -/
def processSingleDocument (o : DocOutcome) (s : SyncStats) :
    SyncStats × Bool :=
  match o with
  | .success true => ({ s with updated := s.updated + 1 }, false)
  | .success false => ({ s with created := s.created + 1 }, false)
  | .saveFailure => ({ s with failed := s.failed + 1 }, true)
  | .otherFailure => (s, true)

/-- Embedding of `_process_documents` (sync.py lines 166-183): per
document, a normal return bumps `documents_processed`; an exception
bumps `documents_failed` (again, for a save failure) and either
continues or aborts the pass per the continue-on-document-error policy.
Returns the final statistics and whether the pass aborted. -/
def processDocuments (continueOnDocError : Bool) :
    List DocOutcome → SyncStats → SyncStats × Bool
  | [], s => (s, false)
  | o :: rest, s =>
    let step := processSingleDocument o s
    if step.2 then
      let s2 := { step.1 with failed := step.1.failed + 1 }
      if continueOnDocError then processDocuments continueOnDocError rest s2
      else (s2, true)
    else
      processDocuments continueOnDocError rest
        { step.1 with processed := step.1.processed + 1 }

/-- The inputs that decide a `run_sync` pass: whether initialization
succeeds, what the fetch stage produces (an exception, or the candidate
documents with their per-document processing outcomes), and the
continue-on-document-error policy. -/
structure RunInput where
  initOk : Bool
  fetchOutcome : Except Unit (List DocOutcome)
  continueOnDocError : Bool

/-- The observables of a `run_sync` pass: the reported success flag, the
watermark value written by `update_last_sync_time` (`none` when it was
never written), and the final statistics. -/
structure RunResult where
  success : Bool
  watermarkWritten : Option Nat
  stats : SyncStats
deriving Repr

/-- Embedding of `sync.run_sync` (sync.py lines 90-131): an
initialization or fetch failure aborts with no watermark write; an empty
candidate list writes the watermark (`datetime.now()`, modelled as
`now`) and succeeds immediately; otherwise the documents are processed
and, unless the pass aborted, the watermark is written and the pass
succeeds. -/
def runSync (inp : RunInput) (now : Nat) : RunResult :=
  if !inp.initOk then ⟨false, none, zeroStats⟩
  else
    match inp.fetchOutcome with
    | .error _ => ⟨false, none, zeroStats⟩
    | .ok docs =>
      if docs.isEmpty then ⟨true, some now, zeroStats⟩
      else
        let pd := processDocuments inp.continueOnDocError docs zeroStats
        if pd.2 then ⟨false, none, pd.1⟩ else ⟨true, some now, pd.1⟩

/-- Number of note files written during a pass: exactly the successful
saves, counted as created plus updated. -/
def notesSaved (s : SyncStats) : Nat := s.created + s.updated

/-- Claim C2: the watermark is written exactly when the pass succeeds; a
written watermark equals `now` at write time and is at least the
previous watermark whenever the clock did not go backwards; and a
successful pass over zero candidate documents writes the watermark while
saving no note files. -/
theorem claim2_watermark (inp : RunInput) (now prev : Nat)
    (hclock : prev ≤ now) :
    ((runSync inp now).watermarkWritten.isSome
        ↔ (runSync inp now).success = true)
    ∧ (∀ w, (runSync inp now).watermarkWritten = some w
        → w = now ∧ prev ≤ w)
    ∧ (inp.initOk = true → inp.fetchOutcome = .ok [] →
        runSync inp now = ⟨true, some now, zeroStats⟩
          ∧ notesSaved (runSync inp now).stats = 0) := by
  rcases inp with ⟨initOk, fetchOutcome, cont⟩
  cases initOk with
  | false => simp [runSync]
  | true =>
    cases fetchOutcome with
    | error e => simp [runSync]
    | ok docs =>
      cases docs with
      | nil =>
        refine ⟨by simp [runSync], ?_, ?_⟩
        · intro w hw
          simp only [runSync, List.isEmpty_nil] at hw
          simp only [Bool.not_true, Bool.false_eq_true, if_false, if_true] at hw
          cases hw
          exact ⟨rfl, hclock⟩
        · intro _ _
          exact ⟨rfl, rfl⟩
      | cons d ds =>
        have hne : (d :: ds).isEmpty = false := rfl
        by_cases hab : (processDocuments cont (d :: ds) zeroStats).2 = true
        · refine ⟨?_, ?_, ?_⟩
          · simp [runSync, hne, hab]
          · intro w hw
            simp [runSync, hne, hab] at hw
          · intro _ h
            exact absurd h (by simp)
        · have hab2 : (processDocuments cont (d :: ds) zeroStats).2 = false := by
            simpa using hab
          refine ⟨?_, ?_, ?_⟩
          · simp [runSync, hne, hab2]
          · intro w hw
            simp only [runSync, hne, Bool.not_true, Bool.false_eq_true,
              if_false, if_true, hab2] at hw
            cases hw
            exact ⟨rfl, hclock⟩
          · intro _ h
            exact absurd h (by simp)

/-- Witness for `claim2_watermark`: a successful empty pass at time 5
with previous watermark 3 writes watermark 5 and saves nothing. -/
theorem claim2_watermark_witness :
    runSync ⟨true, .ok [], true⟩ 5 = ⟨true, some 5, zeroStats⟩
    ∧ notesSaved (runSync ⟨true, .ok [], true⟩ 5).stats = 0 :=
  (claim2_watermark ⟨true, .ok [], true⟩ 5 3 (by decide)).2.2 rfl rfl

theorem processDocuments_processed_eq (cont : Bool) :
    ∀ (docs : List DocOutcome) (s : SyncStats),
      s.processed = s.created + s.updated →
      (processDocuments cont docs s).1.processed
        = (processDocuments cont docs s).1.created
          + (processDocuments cont docs s).1.updated := by
  intro docs
  induction docs with
  | nil => intro s h; exact h
  | cons o rest ih =>
    intro s h
    cases o with
    | success isUpdate =>
      cases isUpdate with
      | true =>
        simp only [processDocuments, processSingleDocument]
        exact ih _ (by simp [h]; omega)
      | false =>
        simp only [processDocuments, processSingleDocument]
        exact ih _ (by simp [h]; omega)
    | saveFailure =>
      simp only [processDocuments, processSingleDocument]
      cases cont with
      | true => exact ih _ (by simpa using h)
      | false => simpa using h
    | otherFailure =>
      simp only [processDocuments, processSingleDocument]
      cases cont with
      | true => exact ih _ (by simpa using h)
      | false => simpa using h

/-- Claim C10: `documents_processed` counts exactly the documents whose
save succeeded (it always equals created plus updated); a save failure
bumps `documents_failed` twice — once in `_process_single_document` and
once in the caller's handler; and the success rate
`((processed - failed) / processed) * 100` is negative when failures
outnumber processed documents — one success followed by one save failure
yields exactly -100. -/
theorem claim10_stats :
    ∀ (cont : Bool) (docs : List DocOutcome) (s : SyncStats),
      ((processDocuments cont docs zeroStats).1.processed
        = (processDocuments cont docs zeroStats).1.created
          + (processDocuments cont docs zeroStats).1.updated)
      ∧ (processDocuments cont [.saveFailure] s).1.failed = s.failed + 2
      ∧ successRate
          (processDocuments true [.success false, .saveFailure] zeroStats).1
          = -100
      ∧ successRate
          (processDocuments true [.success false, .saveFailure] zeroStats).1
          < 0 := by
  intro cont docs s
  have hstate :
      (processDocuments true [.success false, .saveFailure] zeroStats).1
        = ⟨1, 1, 0, 0, 2, 0, 0⟩ := rfl
  refine ⟨processDocuments_processed_eq cont docs zeroStats rfl, ?_, ?_, ?_⟩
  · cases cont <;> rfl
  · rw [hstate]
    norm_num [successRate]
  · rw [hstate]
    norm_num [successRate]

end GranolaSync
